import Mathlib

/-!
Shallow embedding of the core engines of the raydium-client repository
(constant-product quoting, fee and slippage arithmetic, intent resolution,
token-metadata TLV decoding, symbol-directory resolution), with theorems
settling the specification claims about them.

Conventions: Go `*big.Int` values are `Option ℤ` where the pointer can be
nil and `ℤ` where it cannot; Go `big.Int.Quo`/`Rem` (truncated division)
are `Int.tdiv`/`Int.tmod`; byte buffers are `List ℕ`; fallible Go
functions returning `(T, error)` become `Except`.
-/

deriving instance DecidableEq for Except

namespace RaydiumClient

/-- Error values of the quoting / slippage / intent code, one constructor per
distinct `errors.New` / `fmt.Errorf` site in the Go source. -/
inductive QErr where
  | invalidFeeRate            -- tradeFeeNumerator: "trade fee rate %d is invalid"
  | nilAmount                 -- amountAfterTradeFee / amountBeforeTradeFee: nil amount
  | zeroAfterFee              -- amountAfterTradeFee: "amount becomes zero after applying trade fee"
  | nonPositiveNet            -- amountBeforeTradeFee: "amount must be greater than zero when removing trade fee"
  | nonPositiveGross          -- amountBeforeTradeFee: "trade would not require a positive input amount"
  | nonPositiveAmountIn       -- QuoteOut: "amount in must be greater than zero"
  | nonPositiveAmountOut      -- QuoteIn: "amount out must be greater than zero"
  | reservesUnavailable       -- QuoteOut/QuoteIn: "pool reserves unavailable"
  | balancesUnavailable       -- QuoteOut/QuoteIn: "pool balances unavailable"
  | reservesNonPositive       -- QuoteOut/QuoteIn: "pool reserves must be greater than zero"
  | nonPositiveOutput         -- QuoteOut: "trade would not yield a positive output amount"
  | liquidityExceededOut      -- QuoteOut: "requested output would exceed available ... liquidity"
  | liquidityExceededIn       -- QuoteIn: "requested ... exceeds available ... liquidity"
  | nonPositiveInput          -- QuoteIn: "trade would not require a positive input amount"
  | slippageNilAmount         -- applySlippageFloor/Ceil: "amount cannot be nil for slippage calculation"
  | slippageFactorNonPositive -- applySlippageFloor: "slippage factor must be positive"
  | missingBalance (i : ℕ)    -- NewCPIntent: "missing balance information for token index %d"
  | unknownSwapDirection      -- NewCPIntent: "swap direction unknown for verb %s"
  | toBaseFailed              -- fmtForMath failure propagated through NewCPIntent
  | intentMissing             -- BuildSwapInstruction: "cp intent missing"
  | swapMissingAmounts        -- BuildSwapInstruction: "swap input/output intent missing amounts"
  | amountsExceedUint64       -- BuildSwapInstruction: "amounts exceed uint64 range required by the program"
  | unsupportedSwapKind       -- BuildSwapInstruction: "unsupported swap kind"
  | missingSymbolMapping (sym : String) (mint : ℕ) -- TableBuilder.Build: MissingSymbolMappingError
  | unknownSymbol (sym : String) -- TableBuilder.Build: "the ticker symbol you provided is either missing ..."
  deriving DecidableEq, Repr

/-- Fee-rate denominator, parts per million (`feeRateDenom` in the Go source). -/
def feeRateDenom : ℤ := 1000000

/-- Go struct `PoolBalance`: a nilable `*big.Int` balance and a decimals count. -/
structure PoolBalance where
  balance : Option ℤ
  decimals : ℕ
  deriving DecidableEq, Repr

/-- Go struct `ConstantProduct` (the fields the quoting engine reads; the
display-only `SlippagePct` float is omitted). -/
structure ConstantProduct where
  tokenInReserve : Option PoolBalance := none
  tokenOutReserve : Option PoolBalance := none
  tradeFeeRate : ℕ := 0
  slippageRatio : Option ℚ := none

/-- Go `ConstantProduct.tradeFeeNumerator`: rejects fee rates at or above the
denominator, otherwise returns `feeRateDenom - tradeFeeRate`. -/
def tradeFeeNumerator (cp : ConstantProduct) : Except QErr ℤ :=
  if 1000000 ≤ cp.tradeFeeRate then .error .invalidFeeRate
  else .ok (feeRateDenom - (cp.tradeFeeRate : ℤ))

/-- Go `ConstantProduct.amountAfterTradeFee`: `amount * numerator / feeRateDenom`
with truncated division, failing when the net amount is not positive. -/
def amountAfterTradeFee (cp : ConstantProduct) (amount : Option ℤ) : Except QErr ℤ :=
  match amount with
  | none => .error .nilAmount
  | some a =>
    match tradeFeeNumerator cp with
    | .error e => .error e
    | .ok numerator =>
      let net := (a * numerator).tdiv feeRateDenom
      if net ≤ 0 then .error .zeroAfterFee else .ok net

/-- Go `ConstantProduct.amountBeforeTradeFee`: ceiling division
`ceil(net * feeRateDenom / numerator)` implemented as `QuoRem` plus one when the
remainder is positive. -/
def amountBeforeTradeFee (cp : ConstantProduct) (net : Option ℤ) : Except QErr ℤ :=
  match net with
  | none => .error .nilAmount
  | some n =>
    match tradeFeeNumerator cp with
    | .error e => .error e
    | .ok numerator =>
      if n ≤ 0 then .error .nonPositiveNet
      else
        let grossNumerator := n * feeRateDenom
        let quotient := grossNumerator.tdiv numerator
        let remainder := grossNumerator.tmod numerator
        let quotient2 := if 0 < remainder then quotient + 1 else quotient
        if quotient2 ≤ 0 then .error .nonPositiveGross else .ok quotient2

/-- Go `ConstantProduct.QuoteOut`: given-input quoting. Fee is applied to the
input, then `amountOut = reserveOut - (reserveIn*reserveOut)/(reserveIn+netIn)`
with truncated division, guarded against draining the out reserve. -/
def QuoteOut (cp : ConstantProduct) (amountIn : Option ℤ) : Except QErr ℤ :=
  match amountIn with
  | none => .error .nonPositiveAmountIn
  | some aIn =>
    if aIn ≤ 0 then .error .nonPositiveAmountIn
    else
      match cp.tokenInReserve, cp.tokenOutReserve with
      | some rin, some rout =>
        match rin.balance, rout.balance with
        | some reserveIn, some reserveOut =>
          if reserveIn ≤ 0 ∨ reserveOut ≤ 0 then .error .reservesNonPositive
          else
            match amountAfterTradeFee cp (some aIn) with
            | .error e => .error e
            | .ok netAmountIn =>
              let constantProductK := reserveIn * reserveOut
              let updatedReserveIn := reserveIn + netAmountIn
              let newReserveOut := constantProductK.tdiv updatedReserveIn
              let amountOut := reserveOut - newReserveOut
              if amountOut ≤ 0 then .error .nonPositiveOutput
              else if reserveOut ≤ amountOut then .error .liquidityExceededOut
              else .ok amountOut
        | _, _ => .error .balancesUnavailable
      | _, _ => .error .reservesUnavailable

/-- Go `ConstantProduct.QuoteIn`: given-output quoting. The exhaustion check
runs before the curve division; the fee is inverted last via
`amountBeforeTradeFee` (so the fee-rate check happens after the curve math). -/
def QuoteIn (cp : ConstantProduct) (amountOut : Option ℤ) : Except QErr ℤ :=
  match amountOut with
  | none => .error .nonPositiveAmountOut
  | some aOut =>
    if aOut ≤ 0 then .error .nonPositiveAmountOut
    else
      match cp.tokenInReserve, cp.tokenOutReserve with
      | some rin, some rout =>
        match rin.balance, rout.balance with
        | some reserveIn, some reserveOut =>
          if reserveIn ≤ 0 ∨ reserveOut ≤ 0 then .error .reservesNonPositive
          else
            let constantProductK := reserveIn * reserveOut
            if reserveOut ≤ aOut then .error .liquidityExceededIn
            else
              let updatedReserveOut := reserveOut - aOut
              let newReserveIn := constantProductK.tdiv updatedReserveOut
              let netAmountIn := newReserveIn - reserveIn
              if netAmountIn ≤ 0 then .error .nonPositiveInput
              else amountBeforeTradeFee cp (some netAmountIn)
        | _, _ => .error .balancesUnavailable
      | _, _ => .error .reservesUnavailable

/-- Go `applySlippageFloor`: `amount * (1 - ratio)` with truncated division on
the reduced rational factor; identity when the ratio is nil or zero. -/
def applySlippageFloor (amount : Option ℤ) (ratio : Option ℚ) : Except QErr ℤ :=
  match amount with
  | none => .error .slippageNilAmount
  | some a =>
    match ratio with
    | none => .ok a
    | some r =>
      if r = 0 then .ok a
      else
        let factor := 1 - r
        if factor ≤ 0 then .error .slippageFactorNonPositive
        else .ok ((a * factor.num).tdiv (factor.den : ℤ))

/-- Go `applySlippageCeil`: `amount * (1 + ratio)` rounded up (`QuoRem` plus one
on a positive remainder); identity when the ratio is nil or zero. -/
def applySlippageCeil (amount : Option ℤ) (ratio : Option ℚ) : Except QErr ℤ :=
  match amount with
  | none => .error .slippageNilAmount
  | some a =>
    match ratio with
    | none => .ok a
    | some r =>
      if r = 0 then .ok a
      else
        let factor := 1 + r
        let num := a * factor.num
        let q := num.tdiv (factor.den : ℤ)
        let rem := num.tmod (factor.den : ℤ)
        .ok (if 0 < rem then q + 1 else q)

/-- Modelled from the spec: the value `makeSlippageRatio(1)` produces. The Go
function computes `new(big.Rat).SetFloat64(percent / 100)`; float64 arithmetic
itself is outside this embedding, but at the concrete argument 1 the quotient
`1.0/100` rounds (IEEE-754 round-to-nearest-even) to the double whose exact
value is `m / 2^59` with mantissa `m` the nearest integer to `2^59 / 100`,
i.e. `m = 5764607523034235`, and `SetFloat64` converts that double exactly. -/
def makeSlippageRatioOnePct : ℚ := (5764607523034235 : ℚ) / (2 ^ 59 : ℚ)

/-- A `ConstantProduct` with both reserves present, as built by the Go tests'
`newConstantProduct(reserveIn, reserveOut, tradeFee)`. -/
def mkCP (reserveIn reserveOut : ℤ) (tradeFee : ℕ) : ConstantProduct :=
  { tokenInReserve := some ⟨some reserveIn, 0⟩
    tokenOutReserve := some ⟨some reserveOut, 0⟩
    tradeFeeRate := tradeFee
    slippageRatio := none }

/-- On-chain addresses (Go `solana.PublicKey`); only identity matters to the
resolution logic, so they are modelled as naturals. -/
abbrev PubKey := ℕ

/-- Go `SwapDir`. -/
inductive SwapDir where
  | unknown
  | buy
  | sell
  deriving DecidableEq, Repr

/-- Go `SwapKind`. -/
inductive SwapKind where
  | unknown
  | baseInput
  | baseOutput
  deriving DecidableEq, Repr

/-- The fields of the generated `raydium_cp_swap.PoolState` binding that the
intent resolver reads. -/
structure PoolState where
  token0Mint : PubKey
  token1Mint : PubKey
  token0Vault : PubKey
  token1Vault : PubKey
  token0Program : PubKey
  token1Program : PubKey
  ammConfig : PubKey
  observationKey : PubKey
  deriving DecidableEq, Repr

/-- Go `SwapLeg`: one side of the swap. -/
structure SwapLeg where
  mint : PubKey
  vault : PubKey
  program : PubKey
  decimals : ℕ
  deriving DecidableEq, Repr

/-- Go `SwapAmounts` (nilable `*big.Int` fields). -/
structure SwapAmounts where
  knownAmount : Option ℤ := none
  quoteAmount : Option ℤ := none
  minAmountOut : Option ℤ := none
  maxAmountIn : Option ℤ := none
  deriving DecidableEq, Repr

/-- Go `PoolAccounts`. -/
structure PoolAccounts where
  address : PubKey
  ammConfig : PubKey
  observation : PubKey
  deriving DecidableEq, Repr

/-- Go `IntentInstruction`. -/
structure IntentInstruction where
  verb : String
  amountStr : String
  dir : SwapDir
  targetSymbol : String
  deriving DecidableEq, Repr

/-- Go `CPIntent` (the restructured shape with `SwapLeg`/`SwapAmounts`). -/
structure CPIntent where
  instruction : IntentInstruction
  swapKind : SwapKind
  amounts : SwapAmounts
  tokenIn : SwapLeg
  tokenOut : SwapLeg
  pool : PoolAccounts
  deriving DecidableEq, Repr

/-- Go zero value of `SwapLeg`, used before the direction switch assigns the
real legs. -/
def zeroLeg : SwapLeg := ⟨0, 0, 0, 0⟩

/-- Go `NewCPIntent`. The base-unit conversion `fmtForMath` is not part of the
provided sources, so it is passed in abstractly as `toBase`; everything else
follows the Go control flow: balance nil-checks, `targetIsToken0`, the
direction switch assigning reserves and legs, the quote call, and the slippage
bound. -/
def NewCPIntent (toBase : String → ℕ → Except QErr ℤ) (cp : ConstantProduct)
    (pool : PoolState) (poolAddress : PubKey) (instruction : IntentInstruction)
    (targetMint : PubKey) (bal0 bal1 : Option PoolBalance) : Except QErr CPIntent :=
  match bal0 with
  | none => .error (.missingBalance 0)
  | some b0 =>
    match b0.balance with
    | none => .error (.missingBalance 0)
    | some _ =>
      match bal1 with
      | none => .error (.missingBalance 1)
      | some b1 =>
        match b1.balance with
        | none => .error (.missingBalance 1)
        | some _ =>
          let targetIsToken0 := targetMint = pool.token0Mint
          let poolAccounts : PoolAccounts :=
            ⟨poolAddress, pool.ammConfig, pool.observationKey⟩
          let leg0 : SwapLeg :=
            ⟨pool.token0Mint, pool.token0Vault, pool.token0Program, b0.decimals⟩
          let leg1 : SwapLeg :=
            ⟨pool.token1Mint, pool.token1Vault, pool.token1Program, b1.decimals⟩
          match instruction.dir with
          | .buy =>
            let targetDecimals := if targetIsToken0 then b0.decimals else b1.decimals
            let cpQ : ConstantProduct :=
              if targetIsToken0 then
                { cp with tokenInReserve := some b1, tokenOutReserve := some b0 }
              else
                { cp with tokenInReserve := some b0, tokenOutReserve := some b1 }
            let tokenIn := if targetIsToken0 then leg1 else leg0
            let tokenOut := if targetIsToken0 then leg0 else leg1
            match toBase instruction.amountStr targetDecimals with
            | .error e => .error e
            | .ok knownAmount =>
              match QuoteIn cpQ (some knownAmount) with
              | .error e => .error e
              | .ok quote =>
                match applySlippageCeil (some quote) cp.slippageRatio with
                | .error e => .error e
                | .ok maxIn =>
                  .ok { instruction := instruction
                        swapKind := .baseOutput
                        amounts := { knownAmount := some knownAmount
                                     quoteAmount := some quote
                                     minAmountOut := none
                                     maxAmountIn := some maxIn }
                        tokenIn := tokenIn
                        tokenOut := tokenOut
                        pool := poolAccounts }
          | .sell =>
            let targetDecimals := if targetIsToken0 then b0.decimals else b1.decimals
            let cpQ : ConstantProduct :=
              if targetIsToken0 then
                { cp with tokenInReserve := some b0, tokenOutReserve := some b1 }
              else
                { cp with tokenInReserve := some b1, tokenOutReserve := some b0 }
            let tokenIn := if targetIsToken0 then leg0 else leg1
            let tokenOut := if targetIsToken0 then leg1 else leg0
            match toBase instruction.amountStr targetDecimals with
            | .error e => .error e
            | .ok knownAmount =>
              match QuoteOut cpQ (some knownAmount) with
              | .error e => .error e
              | .ok quote =>
                match applySlippageFloor (some quote) cp.slippageRatio with
                | .error e => .error e
                | .ok minOut =>
                  .ok { instruction := instruction
                        swapKind := .baseInput
                        amounts := { knownAmount := some knownAmount
                                     quoteAmount := some quote
                                     minAmountOut := some minOut
                                     maxAmountIn := none }
                        tokenIn := tokenIn
                        tokenOut := tokenOut
                        pool := poolAccounts }
          | .unknown => .error .unknownSwapDirection

/-- Go `big.Int.IsUint64`: the value fits an unsigned 64-bit integer. -/
def isUint64 (v : ℤ) : Bool := decide (0 ≤ v) && decide (v < 2 ^ 64)

/-- The argument vector handed to the generated
`NewSwapBaseInputInstruction` / `NewSwapBaseOutputInstruction` bindings: the
two u64 amounts in wire order plus every account the Go call passes. -/
structure SwapWire where
  variant : SwapKind
  amountA : ℕ
  amountB : ℕ
  payer : PubKey
  authority : PubKey
  ammConfig : PubKey
  poolAddress : PubKey
  inputATA : PubKey
  outputATA : PubKey
  inVault : PubKey
  outVault : PubKey
  inProgram : PubKey
  outProgram : PubKey
  inMint : PubKey
  outMint : PubKey
  observationKey : PubKey
  deriving DecidableEq, Repr

/-- Go `CPIntent.BuildSwapInstruction`: nil receiver check, then per-kind nil
checks on the two amounts, then the uint64-range checks, then the call into the
generated bindings (modelled as constructing the argument vector). -/
def BuildSwapInstruction (ci : Option CPIntent) (payer authority inputATA outputATA : PubKey) :
    Except QErr SwapWire :=
  match ci with
  | none => .error .intentMissing
  | some ci =>
    match ci.swapKind with
    | .baseInput =>
      match ci.amounts.knownAmount, ci.amounts.minAmountOut with
      | some known, some minOut =>
        if isUint64 known && isUint64 minOut then
          .ok ⟨.baseInput, known.toNat, minOut.toNat, payer, authority,
               ci.pool.ammConfig, ci.pool.address, inputATA, outputATA,
               ci.tokenIn.vault, ci.tokenOut.vault, ci.tokenIn.program,
               ci.tokenOut.program, ci.tokenIn.mint, ci.tokenOut.mint,
               ci.pool.observation⟩
        else .error .amountsExceedUint64
      | _, _ => .error .swapMissingAmounts
    | .baseOutput =>
      match ci.amounts.maxAmountIn, ci.amounts.knownAmount with
      | some maxIn, some known =>
        if isUint64 maxIn && isUint64 known then
          .ok ⟨.baseOutput, maxIn.toNat, known.toNat, payer, authority,
               ci.pool.ammConfig, ci.pool.address, inputATA, outputATA,
               ci.tokenIn.vault, ci.tokenOut.vault, ci.tokenIn.program,
               ci.tokenOut.program, ci.tokenIn.mint, ci.tokenOut.mint,
               ci.pool.observation⟩
        else .error .amountsExceedUint64
      | _, _ => .error .swapMissingAmounts
    | .unknown => .error .unsupportedSwapKind

/-- Go `SymbolMapping`: the symbol-to-mint side of the directory plus the set
of mints whose metadata did not resolve (modelled as an association list and a
key list, standing for the Go maps). -/
structure SymbolMapping where
  symbolToMint : List (String × PubKey)
  unresolved : List PubKey
  deriving DecidableEq, Repr

/-- Go `SymbolMapping.MaybeMintFromSym`: map lookup. -/
def MaybeMintFromSym (symm : SymbolMapping) (sym : String) : Option PubKey :=
  (symm.symbolToMint.find? (fun p => p.1 = sym)).map (fun p => p.2)

/-- Go `SymbolMapping.UnresolvedCandidate`: collects the unresolved mints and
returns the single element exactly when there is exactly one. -/
def UnresolvedCandidate (symm : SymbolMapping) : Option PubKey :=
  match symm.unresolved with
  | [x] => some x
  | _ => none

/-- The symbol-resolution prefix of Go `TableBuilder.Build` (report_tables.go,
lines 52-64): look the target symbol up; on a miss, raise the recoverable
`MissingSymbolMappingError` when there is exactly one unresolved candidate and
the hard unknown-symbol error otherwise. -/
def resolveTargetMint (symm : SymbolMapping) (sym : String) : Except QErr PubKey :=
  match MaybeMintFromSym symm sym with
  | some mint => .ok mint
  | none =>
    match UnresolvedCandidate symm with
    | some candidate => .error (.missingSymbolMapping sym candidate)
    | none => .error (.unknownSymbol sym)

/-- Error values of the token-metadata decoder, one constructor per distinct
error site in token_metadata.go. `viaPointer` models the `fmt.Errorf("failed
decoding metadata via pointer %s: %w", ...)` wrap. -/
inductive MetaErr where
  | notToken2022            -- "mint does not belong to a Token2022 token"
  | missingExtensionBytes   -- "token2022 mint missing extension bytes"
  | missingAccountTypeMarker -- "token2022 mint missing account type marker"
  | truncatedHeader         -- "malformed token2022 TLV: truncated header"
  | lengthExceedsRemaining  -- "malformed token2022 TLV: length ... exceeds remaining ..."
  | metadataMissing         -- errTokenMetadataMissing
  | authorityMissing        -- "invalid token metadata: update authority missing"
  | mintBytesMissing        -- "invalid token metadata: mint missing"
  | mintMismatch            -- "token metadata mint mismatch"
  | nameMissing             -- "invalid token metadata: name missing"
  | symbolMissing           -- "invalid token metadata: symbol missing"
  | uriMissing              -- "invalid token metadata: uri missing"
  | additionalCountMissing  -- "invalid token metadata: additional metadata length missing"
  | additionalKeyMissing    -- "invalid token metadata: additional metadata key missing"
  | additionalValueMissing  -- "invalid token metadata: additional metadata value missing"
  | accountMissing          -- rpc failure or nil account value for the pointer address
  | emptyPointerData        -- "metadata pointer ... has empty data"
  | viaPointer (e : MetaErr)
  deriving DecidableEq, Repr

/-- Go `Token`: decoded name and symbol, kept as byte lists. -/
structure Token where
  name : List ℕ
  symbol : List ℕ
  deriving DecidableEq, Repr

/-- The Go zero value `Token{}`. -/
def emptyToken : Token := ⟨[], []⟩

/-- Whitespace bytes trimmed by `strings.TrimSpace`. The Go source trims
Unicode white space over the decoded UTF-8 string; on byte values below 0x80
(all inputs used here) that coincides with this ASCII set. -/
def isSpaceByte (b : ℕ) : Bool := b == 9 || b == 10 || b == 11 || b == 12 || b == 13 || b == 32

/-- Go `trimMeta`: strip trailing NUL bytes, then surrounding whitespace. -/
def trimMeta (s : List ℕ) : List ℕ :=
  let t := (s.reverse.dropWhile (fun b => b == 0)).reverse
  ((t.dropWhile isSpaceByte).reverse.dropWhile isSpaceByte).reverse

/-- Go `equal32`: both slices are exactly 32 bytes and equal. -/
def equal32 (a b : List ℕ) : Bool :=
  a.length == 32 && b.length == 32 && a == b

/-- Go `binaryReader.borshString`: 4-byte little-endian length, bounded by the
remaining buffer, then that many raw bytes; returns the string and the rest. -/
def readBorshString (l : List ℕ) : Option (List ℕ × List ℕ) :=
  match l with
  | b0 :: b1 :: b2 :: b3 :: rest =>
    let n := b0 + 256 * b1 + 65536 * b2 + 16777216 * b3
    if rest.length < n then none else some (rest.take n, rest.drop n)
  | _ => none

/-- Go `binaryReader.le32`: 4-byte little-endian read without a bound check. -/
def readLe32 (l : List ℕ) : Option (ℕ × List ℕ) :=
  match l with
  | b0 :: b1 :: b2 :: b3 :: rest =>
    some (b0 + 256 * b1 + 65536 * b2 + 16777216 * b3, rest)
  | _ => none

/-- The additional-metadata loop of Go `decodeToken2022MetadataEntry`: skip
`count` length-prefixed key/value pairs, validating well-formedness only. -/
def skipPairs : ℕ → List ℕ → Except MetaErr Unit
  | 0, _ => .ok ()
  | n + 1, l =>
    match readBorshString l with
    | none => .error .additionalKeyMissing
    | some (_, l1) =>
      match readBorshString l1 with
      | none => .error .additionalValueMissing
      | some (_, l2) => skipPairs n l2

/-- Go `decodeToken2022MetadataEntry`: 32-byte authority, 32-byte mint that
must equal the queried mint, then borsh name/symbol/uri and the
additional-metadata vector, returning the trimmed name and symbol. -/
def decodeToken2022MetadataEntry (val expectedMint : List ℕ) : Except MetaErr Token :=
  if val.length < 32 then .error .authorityMissing
  else
    let r1 := val.drop 32
    if r1.length < 32 then .error .mintBytesMissing
    else
      let mintBytes := r1.take 32
      let r2 := r1.drop 32
      if equal32 mintBytes expectedMint then
        match readBorshString r2 with
        | none => .error .nameMissing
        | some (name, r3) =>
          match readBorshString r3 with
          | none => .error .symbolMissing
          | some (symbol, r4) =>
            match readBorshString r4 with
            | none => .error .uriMissing
            | some (_, r5) =>
              match readLe32 r5 with
              | none => .error .additionalCountMissing
              | some (count, r6) =>
                match skipPairs count r6 with
                | .error e => .error e
                | .ok _ => .ok ⟨trimMeta name, trimMeta symbol⟩
      else .error .mintMismatch

/-- Go `decodeMetadataPointer`: 64-byte payload, bytes 32..63 are the pointed
address, absent when shorter than 64 bytes or when the address is all zero. -/
def decodeMetadataPointer (val : List ℕ) : Option (List ℕ) :=
  if val.length < 64 then none
  else
    let metaBytes := (val.drop 32).take 32
    if metaBytes.all (fun b => b == 0) then none else some metaBytes

/-- Go `parseToken2022TLVEntries`, returning the Go triple
`(Token, *solana.PublicKey, error)` as `Token × Option pointer × Option error`:
iterate `u16 type + u16 length + value` entries; type 0 terminates; type 19
decodes and returns; type 18 records the pointer and keeps scanning; other
types are skipped. `pointerAcc` is the loop's `pointer`/`pointerSet` state. -/
def parseToken2022TLVEntries (tlv expectedMint : List ℕ)
    (pointerAcc : Option (List ℕ)) : Token × Option (List ℕ) × Option MetaErr :=
  match tlv with
  | [] =>
    (match pointerAcc with
     | some p => (emptyToken, some p, none)
     | none => (emptyToken, none, some .metadataMissing))
  | b0 :: b1 :: b2 :: b3 :: rest =>
    let typ := b0 + 256 * b1
    if typ = 0 then
      (match pointerAcc with
       | some p => (emptyToken, some p, none)
       | none => (emptyToken, none, some .metadataMissing))
    else
      let length := b2 + 256 * b3
      if rest.length < length then (emptyToken, none, some .lengthExceedsRemaining)
      else
        let value := rest.take length
        let rest2 := rest.drop length
        if typ = 19 then
          match decodeToken2022MetadataEntry value expectedMint with
          | .ok t => (t, none, none)
          | .error e => (emptyToken, none, some e)
        else if typ = 18 then
          match decodeMetadataPointer value with
          | some pk => parseToken2022TLVEntries rest2 expectedMint (some pk)
          | none => parseToken2022TLVEntries rest2 expectedMint pointerAcc
        else parseToken2022TLVEntries rest2 expectedMint pointerAcc
  | _ => (emptyToken, none, some .truncatedHeader)
termination_by tlv.length
decreasing_by
  all_goals simp [List.length_drop]; omega

/-- Go `fetchToken2022MetadataViaPointer`. The remote ledger read
(`GetAccountInfoWithOpts`) is the function argument `fetch`; the second
component of the result records every address this call fetched, so the
one-hop bound is a statement about that trace. After fetching, the buffer is
parsed as a TLV entry region; on `errTokenMetadataMissing` (and only then) the
same buffer is re-decoded as a bare type-19 payload. -/
def fetchToken2022MetadataViaPointer (fetch : List ℕ → Option (List ℕ))
    (pointer mint : List ℕ) : Except MetaErr Token × List (List ℕ) :=
  match fetch pointer with
  | none => (.error .accountMissing, [pointer])
  | some buf =>
    if buf.length = 0 then (.error .emptyPointerData, [pointer])
    else
      let pr := parseToken2022TLVEntries buf mint none
      match pr.2.2 with
      | none => (.ok pr.1, [pointer])
      | some e =>
        if e = .metadataMissing then
          match decodeToken2022MetadataEntry buf mint with
          | .ok t => (.ok t, [pointer])
          | .error e2 => (.error (.viaPointer e2), [pointer])
        else (.error e, [pointer])

/-- Go `token2022TLVRegion`: try the padded layout (83 zero bytes plus the
account-type marker 1 after the 82-byte mint record), then the unpadded one
(marker at byte 82). -/
def token2022TLVRegion (data : List ℕ) : Except MetaErr (List ℕ) :=
  let rest := data.drop 82
  if rest.length = 0 then .error .missingExtensionBytes
  else
    let padded := decide (84 ≤ rest.length) &&
      (rest.take 83).all (fun b => b == 0) && rest.getD 83 0 == 1
    if padded then .ok (rest.drop 84)
    else if rest.headD 0 == 1 then .ok (rest.drop 1)
    else .error .missingAccountTypeMarker

/-- Go `parseToken2022Metadata`, instrumented with the same fetch trace: length
gate, region probing, TLV parse, then the Go early-return on a nil error
followed by the pointer branch. -/
def parseToken2022Metadata (fetch : List ℕ → Option (List ℕ))
    (mint data : List ℕ) : Except MetaErr Token × List (List ℕ) :=
  if data.length ≤ 82 then (.error .notToken2022, [])
  else
    match token2022TLVRegion data with
    | .error e => (.error e, [])
    | .ok region =>
      let pr := parseToken2022TLVEntries region mint none
      match pr.2.2 with
      | none => (.ok pr.1, [])
      | some e =>
        match pr.2.1 with
        | some p => fetchToken2022MetadataViaPointer fetch p mint
        | none => (.error e, [])

/-! Concrete sample data used by witnesses and counterexamples. -/

/-- A pointed-to account buffer whose TLV region holds a single type-18
(metadata pointer) entry and no type-19 entry: header `[18,0,64,0]`, a 32-byte
authority of zeros, then a nonzero 32-byte pointer address. -/
def pointerOnlyBuf : List ℕ :=
  [18, 0, 64, 0] ++ List.replicate 32 0 ++ (1 :: List.replicate 31 0)

/-- The pointer address stored inside `pointerOnlyBuf`. -/
def pointedAddr : List ℕ := 1 :: List.replicate 31 0

/-- A 32-byte mint address used when querying metadata in the samples. -/
def sampleMint : List ℕ := List.replicate 32 7

/-- A 32-byte metadata-pointer address used in the samples. -/
def samplePointer : List ℕ := List.replicate 32 9

/-- A constant base-unit conversion standing in for `fmtForMath` in the intent
witness. -/
def toBaseConst : String → ℕ → Except QErr ℤ := fun _ _ => .ok 100

/-- A sample pool record for the intent witness: token0 data `10/20/30`,
token1 data `11/21/31`, amm config `40`, observation key `41`. -/
def poolSample : PoolState := ⟨10, 11, 20, 21, 30, 31, 40, 41⟩

/-- The intent `NewCPIntent` produces for `pay 1 SOL` against `poolSample`
with balances `(1000, 2000)`, zero fee and no slippage ratio, with
`toBaseConst` converting the literal to 100 base units. -/
def sellIntentSample : CPIntent :=
  ⟨⟨"pay", "1", .sell, "SOL"⟩, .baseInput, ⟨some 100, some 182, some 182, none⟩,
   ⟨10, 20, 30, 9⟩, ⟨11, 21, 31, 6⟩, ⟨99, 40, 41⟩⟩

/-- An intent that resolved fine but whose known amount does not fit in 64
bits, used by the build witness. -/
def oversizedIntentSample : CPIntent :=
  ⟨⟨"pay", "1", .sell, "SOL"⟩, .baseInput, ⟨some (2 ^ 64), some 182, some 182, none⟩,
   ⟨10, 20, 30, 9⟩, ⟨11, 21, 31, 6⟩, ⟨99, 40, 41⟩⟩

/-- A symbol directory with no symbol entries and exactly one unresolved mint. -/
def symmOneUnresolved : SymbolMapping := ⟨[], [42]⟩

/-! Helper lemmas shared by the claim theorems. -/

/-- Definitional unfolding of `QuoteOut` on a fully populated pool. -/
lemma quoteOut_unfold (X Y a : ℤ) (f : ℕ) :
    QuoteOut (mkCP X Y f) (some a) =
      if a ≤ 0 then .error .nonPositiveAmountIn
      else if X ≤ 0 ∨ Y ≤ 0 then .error .reservesNonPositive
      else
        match amountAfterTradeFee (mkCP X Y f) (some a) with
        | .error e => .error e
        | .ok net =>
          if Y - (X * Y).tdiv (X + net) ≤ 0 then .error .nonPositiveOutput
          else if Y ≤ Y - (X * Y).tdiv (X + net) then .error .liquidityExceededOut
          else .ok (Y - (X * Y).tdiv (X + net)) := rfl

/-- Definitional unfolding of `QuoteIn` on a fully populated pool. -/
lemma quoteIn_unfold (X Y dY : ℤ) (f : ℕ) :
    QuoteIn (mkCP X Y f) (some dY) =
      if dY ≤ 0 then .error .nonPositiveAmountOut
      else if X ≤ 0 ∨ Y ≤ 0 then .error .reservesNonPositive
      else if Y ≤ dY then .error .liquidityExceededIn
      else if (X * Y).tdiv (Y - dY) - X ≤ 0 then .error .nonPositiveInput
      else amountBeforeTradeFee (mkCP X Y f) (some ((X * Y).tdiv (Y - dY) - X)) := rfl

/-- Reduction of the fee application when the fee rate is admissible. -/
lemma amountAfterTradeFee_reduce (X Y a : ℤ) (f : ℕ) (hf : ¬ 1000000 ≤ f) :
    amountAfterTradeFee (mkCP X Y f) (some a) =
      if (a * (1000000 - (f : ℤ))).tdiv 1000000 ≤ 0 then .error .zeroAfterFee
      else .ok ((a * (1000000 - (f : ℤ))).tdiv 1000000) := by
  simp [amountAfterTradeFee, tradeFeeNumerator, mkCP, hf, feeRateDenom]

/-- Reduction of `QuoteOut` once the fee application has succeeded. -/
lemma quoteOut_reduce (X Y a net : ℤ) (f : ℕ) (ha : ¬ a ≤ 0) (hXY : ¬ (X ≤ 0 ∨ Y ≤ 0))
    (hfee : amountAfterTradeFee (mkCP X Y f) (some a) = .ok net) :
    QuoteOut (mkCP X Y f) (some a) =
      if Y - (X * Y).tdiv (X + net) ≤ 0 then .error .nonPositiveOutput
      else if Y ≤ Y - (X * Y).tdiv (X + net) then .error .liquidityExceededOut
      else .ok (Y - (X * Y).tdiv (X + net)) := by
  rw [quoteOut_unfold, if_neg ha, if_neg hXY, hfee]

/-- Reduction of `QuoteOut` when the fee application fails. -/
lemma quoteOut_reduce_feeErr (X Y a : ℤ) (f : ℕ) (e : QErr)
    (ha : ¬ a ≤ 0) (hXY : ¬ (X ≤ 0 ∨ Y ≤ 0))
    (hfee : amountAfterTradeFee (mkCP X Y f) (some a) = .error e) :
    QuoteOut (mkCP X Y f) (some a) = .error e := by
  rw [quoteOut_unfold, if_neg ha, if_neg hXY, hfee]

/-- Success elimination for `QuoteOut` on a fully populated pool: recovers the
guard facts and the computed output. -/
lemma quoteOut_ok_cases {X Y a out : ℤ} {f : ℕ}
    (h : QuoteOut (mkCP X Y f) (some a) = .ok out) :
    0 < a ∧ 0 < X ∧ 0 < Y ∧ f < 1000000 ∧
      0 < (a * (1000000 - (f : ℤ))).tdiv 1000000 ∧
      out = Y - (X * Y).tdiv (X + (a * (1000000 - (f : ℤ))).tdiv 1000000) ∧
      0 < out ∧ out < Y := by
  by_cases ha : a ≤ 0
  · rw [quoteOut_unfold, if_pos ha] at h; exact absurd h (by simp)
  by_cases hXY : X ≤ 0 ∨ Y ≤ 0
  · rw [quoteOut_unfold, if_neg ha, if_pos hXY] at h; exact absurd h (by simp)
  by_cases hf : 1000000 ≤ f
  · have hbad : amountAfterTradeFee (mkCP X Y f) (some a) = .error .invalidFeeRate := by
      simp [amountAfterTradeFee, tradeFeeNumerator, mkCP, hf]
    rw [quoteOut_reduce_feeErr X Y a f _ ha hXY hbad] at h; exact absurd h (by simp)
  by_cases hnet : (a * (1000000 - (f : ℤ))).tdiv 1000000 ≤ 0
  · have hbad : amountAfterTradeFee (mkCP X Y f) (some a) = .error .zeroAfterFee := by
      rw [amountAfterTradeFee_reduce X Y a f hf, if_pos hnet]
    rw [quoteOut_reduce_feeErr X Y a f _ ha hXY hbad] at h; exact absurd h (by simp)
  have hfee : amountAfterTradeFee (mkCP X Y f) (some a) =
      .ok ((a * (1000000 - (f : ℤ))).tdiv 1000000) := by
    rw [amountAfterTradeFee_reduce X Y a f hf, if_neg hnet]
  rw [quoteOut_reduce X Y a _ f ha hXY hfee] at h
  by_cases hpos : Y - (X * Y).tdiv (X + (a * (1000000 - (f : ℤ))).tdiv 1000000) ≤ 0
  · rw [if_pos hpos] at h; exact absurd h (by simp)
  rw [if_neg hpos] at h
  by_cases hliq : Y ≤ Y - (X * Y).tdiv (X + (a * (1000000 - (f : ℤ))).tdiv 1000000)
  · rw [if_pos hliq] at h; exact absurd h (by simp)
  rw [if_neg hliq] at h
  have hout : Y - (X * Y).tdiv (X + (a * (1000000 - (f : ℤ))).tdiv 1000000) = out := by
    simpa using h
  push_neg at hXY
  refine ⟨lt_of_not_le ha, hXY.1, hXY.2, lt_of_not_le hf, lt_of_not_le hnet,
    hout.symm, ?_, ?_⟩
  · omega
  · omega

/-- Success elimination for `QuoteIn` on a fully populated pool. -/
lemma quoteIn_ok_cases {X Y dY gross : ℤ} {f : ℕ}
    (h : QuoteIn (mkCP X Y f) (some dY) = .ok gross) :
    0 < dY ∧ 0 < X ∧ 0 < Y ∧ dY < Y ∧
      0 < (X * Y).tdiv (Y - dY) - X ∧
      amountBeforeTradeFee (mkCP X Y f) (some ((X * Y).tdiv (Y - dY) - X)) = .ok gross := by
  rw [quoteIn_unfold] at h
  by_cases hd : dY ≤ 0
  · rw [if_pos hd] at h; exact absurd h (by simp)
  rw [if_neg hd] at h
  by_cases hXY : X ≤ 0 ∨ Y ≤ 0
  · rw [if_pos hXY] at h; exact absurd h (by simp)
  rw [if_neg hXY] at h
  by_cases hliq : Y ≤ dY
  · rw [if_pos hliq] at h; exact absurd h (by simp)
  rw [if_neg hliq] at h
  by_cases hnet : (X * Y).tdiv (Y - dY) - X ≤ 0
  · rw [if_pos hnet] at h; exact absurd h (by simp)
  rw [if_neg hnet] at h
  push_neg at hXY
  exact ⟨lt_of_not_le hd, hXY.1, hXY.2, lt_of_not_le hliq, lt_of_not_le hnet, h⟩

/-- With a zero fee rate the gross amount equals the net amount. -/
lemma amountBeforeTradeFee_zero_fee {X Y n gross : ℤ}
    (h : amountBeforeTradeFee (mkCP X Y 0) (some n) = .ok gross) : gross = n := by
  by_cases hn : n ≤ 0
  · simp [amountBeforeTradeFee, tradeFeeNumerator, mkCP, hn] at h
  have h1 : (n * (1000000 : ℤ)).tdiv 1000000 = n :=
    Int.mul_tdiv_cancel n (by norm_num)
  have h2 : (n * (1000000 : ℤ)).tmod 1000000 = 0 := Int.mul_tmod_left n 1000000
  simp only [amountBeforeTradeFee, tradeFeeNumerator, mkCP, feeRateDenom] at h
  norm_num [h1, h2, hn] at h
  omega

/-- Division bound used by the invariant: for nonnegative `k` and positive `b`,
`b * (k.tdiv b) ≤ k`. -/
lemma tdiv_mul_le_self {k b : ℤ} (hk : 0 ≤ k) (hb : 0 < b) :
    b * (k.tdiv b) ≤ k := by
  rw [Int.tdiv_eq_ediv hk hb.le, mul_comm]
  exact Int.ediv_mul_le k hb.ne'

/-- Inverting a floor division: if `q = k.tdiv b` is positive then dividing `k`
by `q` recovers at least `b`, for nonnegative `k` and positive `b`. -/
lemma tdiv_tdiv_ge {k b : ℤ} (hk : 0 ≤ k) (hb : 0 < b)
    (hq : 0 < k.tdiv b) : b ≤ k.tdiv (k.tdiv b) := by
  have hmul : (k.tdiv b) * b ≤ k := by
    have := tdiv_mul_le_self hk hb
    linarith [this, mul_comm b (k.tdiv b)]
  rw [Int.tdiv_eq_ediv hk hq.le]
  exact (Int.le_ediv_iff_mul_le hq).mpr (by linarith [mul_comm b (k.tdiv b)])

/-! Claim theorems. -/

/-- C1: for all positive integer reserves `(X, Y)` and every positive
`amountIn` with fee rate `f` in `[0, 1000000)` such that `QuoteOut` succeeds,
the returned `amountOut` is strictly less than `Y`, and
`(X + netIn) * (Y - amountOut) ≤ X * Y` for
`netIn = ⌊amountIn * (1000000 - f) / 1000000⌋`. -/
theorem quoteOut_invariant_preservation (X Y a out : ℤ) (f : ℕ)
    (hX : 0 < X) (hY : 0 < Y) (_ha : 0 < a) (_hf : f < 1000000)
    (h : QuoteOut (mkCP X Y f) (some a) = .ok out) :
    out < Y ∧
      (X + (a * (1000000 - (f : ℤ))).tdiv 1000000) * (Y - out) ≤ X * Y := by
  obtain ⟨-, -, -, -, hnet, hout, -, houtY⟩ := quoteOut_ok_cases h
  refine ⟨houtY, ?_⟩
  have hYout : Y - out = (X * Y).tdiv (X + (a * (1000000 - (f : ℤ))).tdiv 1000000) := by
    omega
  rw [hYout]
  exact tdiv_mul_le_self (by positivity) (by linarith)

/-- Witness for C1 at reserves `(1000, 2000)`, fee `3000` ppm, input `100`. -/
theorem quoteOut_invariant_preservation_witness :
    (181 : ℤ) < 2000 ∧
      ((1000 : ℤ) + ((100 : ℤ) * (1000000 - ((3000 : ℕ) : ℤ))).tdiv 1000000) *
          (2000 - 181) ≤ 1000 * 2000 :=
  quoteOut_invariant_preservation 1000 2000 100 181 3000 (by decide) (by decide)
    (by decide) (by decide) (by decide)

/-- C2: with reserves `(1000, 2000)` and fee rate `3000` ppm, `QuoteOut 100`
returns `181` and `QuoteIn 200` returns `112`. -/
theorem quote_concrete_scenarios :
    QuoteOut (mkCP 1000 2000 3000) (some 100) = .ok 181 ∧
    QuoteIn (mkCP 1000 2000 3000) (some 200) = .ok 112 :=
  ⟨by decide, by decide⟩

/-- C3 counterexample: the strict round-trip loss claimed for nonzero fees
fails. At reserves `(1000, 2000)` with fee `3000` ppm,
`QuoteIn (QuoteOut 100) = 100` exactly (not `> 100`); at reserves
`(1000, 1000)` with fee `500000` ppm, `QuoteIn (QuoteOut 3) = 2 < 3`, so not
even `≥` holds with a nonzero fee. -/
theorem roundTrip_strict_loss_counterexample :
    QuoteOut (mkCP 1000 2000 3000) (some 100) = .ok 181 ∧
    QuoteIn (mkCP 1000 2000 3000) (some 181) = .ok 100 ∧
    ¬ (100 : ℤ) < 100 ∧
    QuoteOut (mkCP 1000 1000 500000) (some 3) = .ok 1 ∧
    QuoteIn (mkCP 1000 1000 500000) (some 1) = .ok 2 ∧
    (2 : ℤ) < 3 :=
  ⟨by decide, by decide, by decide, by decide, by decide, by decide⟩

/-- C3 (amended): with fee rate 0, whenever both calls succeed on the same
reserves, `QuoteIn (QuoteOut amountIn) ≥ amountIn`. (With a nonzero fee no
such bound holds in either direction; see the counterexample.) -/
theorem roundTrip_no_fee_lower_bound (X Y a out gross : ℤ)
    (h1 : QuoteOut (mkCP X Y 0) (some a) = .ok out)
    (h2 : QuoteIn (mkCP X Y 0) (some out) = .ok gross) :
    a ≤ gross := by
  obtain ⟨ha, hX, hY, -, -, hout, houtpos, houtY⟩ := quoteOut_ok_cases h1
  have hcast : (((0 : ℕ) : ℤ)) = 0 := by norm_num
  rw [hcast] at hout
  have hnetA : (a * (1000000 - (0 : ℤ))).tdiv 1000000 = a := by
    rw [sub_zero]
    exact Int.mul_tdiv_cancel a (by norm_num)
  rw [hnetA] at hout
  obtain ⟨-, -, -, -, hnetIn, hbe⟩ := quoteIn_ok_cases h2
  have hgross : gross = (X * Y).tdiv (Y - out) - X := amountBeforeTradeFee_zero_fee hbe
  have hYout : Y - out = (X * Y).tdiv (X + a) := by omega
  rw [hYout] at hgross
  have hqpos : 0 < (X * Y).tdiv (X + a) := by omega
  have hge : X + a ≤ (X * Y).tdiv ((X * Y).tdiv (X + a)) :=
    tdiv_tdiv_ge (by positivity) (by linarith) hqpos
  omega

/-- Witness for C3 (amended) at reserves `(1000, 2000)`, fee 0, input `100`:
the round trip returns exactly `100`. -/
theorem roundTrip_no_fee_lower_bound_witness : (100 : ℤ) ≤ 100 :=
  roundTrip_no_fee_lower_bound 1000 2000 100 182 100 (by decide) (by decide)

/-- C4 counterexample: with an invalid fee rate (`1000000` ppm), `QuoteIn` can
return an error other than the invalid-fee-rate one, because its fee check
runs only after the curve math: requesting the whole out reserve yields the
liquidity error instead. -/
theorem quoteIn_invalid_fee_error_order_counterexample :
    QuoteIn (mkCP 1000 2000 1000000) (some 2000) = .error .liquidityExceededIn ∧
    QErr.liquidityExceededIn ≠ QErr.invalidFeeRate :=
  ⟨by decide, by decide⟩

/-- C4 (amended): with `feeRatePpm ≥ 1000000`, `QuoteOut` fails with the
invalid-fee-rate error whenever its argument guards pass (positive amount and
reserves), since its fee check precedes the curve math; `QuoteIn` never
succeeds, but its fee check runs after the curve math, so an earlier guard can
produce a different error first. -/
theorem invalid_fee_rate_behavior (f : ℕ) (hf : 1000000 ≤ f) :
    (∀ X Y a : ℤ, 0 < X → 0 < Y → 0 < a →
       QuoteOut (mkCP X Y f) (some a) = .error .invalidFeeRate) ∧
    (∀ cp : ConstantProduct, cp.tradeFeeRate = f →
       ∀ amountOut : Option ℤ, ∀ v : ℤ, QuoteIn cp amountOut ≠ .ok v) := by
  constructor
  · intro X Y a hX hY ha
    have hbad : amountAfterTradeFee (mkCP X Y f) (some a) = .error .invalidFeeRate := by
      simp [amountAfterTradeFee, tradeFeeNumerator, mkCP, hf]
    exact quoteOut_reduce_feeErr X Y a f _ (not_le.mpr ha)
      (by push_neg; exact ⟨hX, hY⟩) hbad
  · intro cp hcp amountOut v h
    rcases amountOut with _ | dY
    · simp [QuoteIn] at h
    by_cases hd : dY ≤ 0
    · simp [QuoteIn, hd] at h
    rcases hin : cp.tokenInReserve with _ | rin
    · simp [QuoteIn, hd, hin] at h
    rcases hro : cp.tokenOutReserve with _ | rout
    · simp [QuoteIn, hd, hin, hro] at h
    rcases hbin : rin.balance with _ | Xv
    · simp [QuoteIn, hd, hin, hro, hbin] at h
    rcases hbout : rout.balance with _ | Yv
    · simp [QuoteIn, hd, hin, hro, hbin, hbout] at h
    by_cases hXY : Xv ≤ 0 ∨ Yv ≤ 0
    · simp [QuoteIn, hd, hin, hro, hbin, hbout, hXY] at h
    by_cases hliq : Yv ≤ dY
    · simp [QuoteIn, hd, hin, hro, hbin, hbout, hXY, hliq] at h
    by_cases hnet : (Xv * Yv).tdiv (Yv - dY) - Xv ≤ 0
    · simp [QuoteIn, hd, hin, hro, hbin, hbout, hXY, hliq, hnet] at h
    have hred : QuoteIn cp (some dY) =
        amountBeforeTradeFee cp (some ((Xv * Yv).tdiv (Yv - dY) - Xv)) := by
      simp [QuoteIn, hd, hin, hro, hbin, hbout, hXY, hliq, hnet]
    rw [hred] at h
    simp [amountBeforeTradeFee, tradeFeeNumerator, hcp, hf] at h

/-- Witness for C4 (amended) at fee rate `1000000` on reserves `(1000, 2000)`. -/
theorem invalid_fee_rate_behavior_witness :
    QuoteOut (mkCP 1000 2000 1000000) (some 100) = .error .invalidFeeRate ∧
    QuoteIn (mkCP 1000 2000 1000000) (some 200) ≠ .ok 112 :=
  ⟨(invalid_fee_rate_behavior 1000000 (by decide)).1 1000 2000 100
      (by decide) (by decide) (by decide),
   (invalid_fee_rate_behavior 1000000 (by decide)).2 (mkCP 1000 2000 1000000)
      (by decide) (some 200) 112⟩

/-- C5 counterexample: with the ratio `makeSlippageRatio(1)` actually produces
(the float64 rounding of 1/100, which is slightly above 1/100), the slippage
bounds on 1000 are 989 and 1011, not the claimed 990 and 1010. -/
theorem slippage_one_percent_float_counterexample :
    applySlippageFloor (some 1000) (some makeSlippageRatioOnePct) = .ok 989 ∧
    applySlippageCeil (some 1000) (some makeSlippageRatioOnePct) = .ok 1011 ∧
    (Except.ok (989 : ℤ) : Except QErr ℤ) ≠ .ok 990 ∧
    (Except.ok (1011 : ℤ) : Except QErr ℤ) ≠ .ok 1010 :=
  ⟨by with_unfolding_all rfl, by with_unfolding_all rfl, by decide, by decide⟩

/-- C5 (amended): with the exact rational 1/100 — the ratio the repository's
own tests pass — the floor bound on 1000 is 990 and the ceiling bound is 1010;
`makeSlippageRatio(1)` instead produces the float64 value
`5764607523034235 / 2^59`, which exceeds 1/100, and under it the results are
989 and 1011. -/
theorem slippage_one_percent_exact_values :
    applySlippageFloor (some 1000) (some ((1 : ℚ) / 100)) = .ok 990 ∧
    applySlippageCeil (some 1000) (some ((1 : ℚ) / 100)) = .ok 1010 ∧
    (1 : ℚ) / 100 < makeSlippageRatioOnePct :=
  ⟨by with_unfolding_all rfl, by with_unfolding_all rfl,
   by rw [makeSlippageRatioOnePct]; norm_num⟩

/-- C6: for every successfully resolved intent, the leg assignment follows
direction and target: Sell with target leg0 gives in=leg0/out=leg1, Sell with
target leg1 gives in=leg1/out=leg0, Buy with target leg0 gives
in=leg1/out=leg0, Buy with target leg1 gives in=leg0/out=leg1 (mint, vault,
program and decimals all together), and the amount literal is converted with
the target leg's decimals in all four cases. -/
theorem newCPIntent_leg_assignment (toBase : String → ℕ → Except QErr ℤ)
    (cp : ConstantProduct) (pool : PoolState) (addr : PubKey)
    (instr : IntentInstruction) (targetMint : PubKey) (b0 b1 : PoolBalance)
    (intent : CPIntent)
    (h : NewCPIntent toBase cp pool addr instr targetMint (some b0) (some b1) = .ok intent) :
    (instr.dir = .sell → targetMint = pool.token0Mint →
       intent.tokenIn = ⟨pool.token0Mint, pool.token0Vault, pool.token0Program, b0.decimals⟩ ∧
       intent.tokenOut = ⟨pool.token1Mint, pool.token1Vault, pool.token1Program, b1.decimals⟩ ∧
       ∃ k, toBase instr.amountStr b0.decimals = .ok k ∧
         intent.amounts.knownAmount = some k) ∧
    (instr.dir = .sell → targetMint = pool.token1Mint → targetMint ≠ pool.token0Mint →
       intent.tokenIn = ⟨pool.token1Mint, pool.token1Vault, pool.token1Program, b1.decimals⟩ ∧
       intent.tokenOut = ⟨pool.token0Mint, pool.token0Vault, pool.token0Program, b0.decimals⟩ ∧
       ∃ k, toBase instr.amountStr b1.decimals = .ok k ∧
         intent.amounts.knownAmount = some k) ∧
    (instr.dir = .buy → targetMint = pool.token0Mint →
       intent.tokenIn = ⟨pool.token1Mint, pool.token1Vault, pool.token1Program, b1.decimals⟩ ∧
       intent.tokenOut = ⟨pool.token0Mint, pool.token0Vault, pool.token0Program, b0.decimals⟩ ∧
       ∃ k, toBase instr.amountStr b0.decimals = .ok k ∧
         intent.amounts.knownAmount = some k) ∧
    (instr.dir = .buy → targetMint = pool.token1Mint → targetMint ≠ pool.token0Mint →
       intent.tokenIn = ⟨pool.token0Mint, pool.token0Vault, pool.token0Program, b0.decimals⟩ ∧
       intent.tokenOut = ⟨pool.token1Mint, pool.token1Vault, pool.token1Program, b1.decimals⟩ ∧
       ∃ k, toBase instr.amountStr b1.decimals = .ok k ∧
         intent.amounts.knownAmount = some k) := by
  rcases hb0 : b0.balance with _ | x0
  · simp [NewCPIntent, hb0] at h
  rcases hb1 : b1.balance with _ | x1
  · simp [NewCPIntent, hb0, hb1] at h
  cases hdir : instr.dir with
  | unknown => simp [NewCPIntent, hb0, hb1, hdir] at h
  | sell =>
    refine ⟨?_, ?_, ?_, ?_⟩
    case refine_3 => intro hd; exact absurd hd (by decide)
    case refine_4 => intro hd; exact absurd hd (by decide)
    · intro _ ht
      rcases htb : toBase instr.amountStr b0.decimals with e | k
      · simp [NewCPIntent, hb0, hb1, hdir, ht, htb] at h
      rcases hq : QuoteOut { cp with tokenInReserve := some b0, tokenOutReserve := some b1 }
          (some k) with e | q
      · simp [NewCPIntent, hb0, hb1, hdir, ht, htb, hq] at h
      rcases hs : applySlippageFloor (some q) cp.slippageRatio with e | m
      · simp [NewCPIntent, hb0, hb1, hdir, ht, htb, hq, hs] at h
      simp only [NewCPIntent, hb0, hb1, hdir, ht, htb, hq, hs, if_true, eq_self_iff_true,
        if_pos, Except.ok.injEq] at h
      subst h
      exact ⟨rfl, rfl, k, rfl, rfl⟩
    · intro _ _ ht
      rcases htb : toBase instr.amountStr b1.decimals with e | k
      · simp [NewCPIntent, hb0, hb1, hdir, ht, htb] at h
      rcases hq : QuoteOut { cp with tokenInReserve := some b1, tokenOutReserve := some b0 }
          (some k) with e | q
      · simp [NewCPIntent, hb0, hb1, hdir, ht, htb, hq] at h
      rcases hs : applySlippageFloor (some q) cp.slippageRatio with e | m
      · simp [NewCPIntent, hb0, hb1, hdir, ht, htb, hq, hs] at h
      simp only [NewCPIntent, hb0, hb1, hdir, ht, htb, hq, hs, if_neg, Except.ok.injEq,
        if_false] at h
      subst h
      exact ⟨rfl, rfl, k, rfl, rfl⟩
  | buy =>
    refine ⟨?_, ?_, ?_, ?_⟩
    case refine_1 => intro hd; exact absurd hd (by decide)
    case refine_2 => intro hd; exact absurd hd (by decide)
    · intro _ ht
      rcases htb : toBase instr.amountStr b0.decimals with e | k
      · simp [NewCPIntent, hb0, hb1, hdir, ht, htb] at h
      rcases hq : QuoteIn { cp with tokenInReserve := some b1, tokenOutReserve := some b0 }
          (some k) with e | q
      · simp [NewCPIntent, hb0, hb1, hdir, ht, htb, hq] at h
      rcases hs : applySlippageCeil (some q) cp.slippageRatio with e | m
      · simp [NewCPIntent, hb0, hb1, hdir, ht, htb, hq, hs] at h
      simp only [NewCPIntent, hb0, hb1, hdir, ht, htb, hq, hs, if_true, eq_self_iff_true,
        if_pos, Except.ok.injEq] at h
      subst h
      exact ⟨rfl, rfl, k, rfl, rfl⟩
    · intro _ _ ht
      rcases htb : toBase instr.amountStr b1.decimals with e | k
      · simp [NewCPIntent, hb0, hb1, hdir, ht, htb] at h
      rcases hq : QuoteIn { cp with tokenInReserve := some b0, tokenOutReserve := some b1 }
          (some k) with e | q
      · simp [NewCPIntent, hb0, hb1, hdir, ht, htb, hq] at h
      rcases hs : applySlippageCeil (some q) cp.slippageRatio with e | m
      · simp [NewCPIntent, hb0, hb1, hdir, ht, htb, hq, hs] at h
      simp only [NewCPIntent, hb0, hb1, hdir, ht, htb, hq, hs, if_neg, Except.ok.injEq,
        if_false] at h
      subst h
      exact ⟨rfl, rfl, k, rfl, rfl⟩

/-- Witness for C6: `pay 1 SOL` targeting leg0 of `poolSample` resolves with
in=leg0, out=leg1 and the literal converted with leg0's decimals. -/
theorem newCPIntent_leg_assignment_witness :
    sellIntentSample.tokenIn = ⟨10, 20, 30, 9⟩ ∧
    sellIntentSample.tokenOut = ⟨11, 21, 31, 6⟩ ∧
    ∃ k, toBaseConst "1" 9 = .ok k ∧
      sellIntentSample.amounts.knownAmount = some k :=
  (newCPIntent_leg_assignment toBaseConst ⟨none, none, 0, none⟩ poolSample 99
      ⟨"pay", "1", .sell, "SOL"⟩ 10 ⟨some 1000, 9⟩ ⟨some 2000, 6⟩ sellIntentSample
      (by decide)).1 rfl rfl

/-- The pointer-following helper fetches exactly the address it is given and
nothing else, whatever the fetched bytes contain. -/
lemma fetchViaPointer_trace (fetch : List ℕ → Option (List ℕ)) (ptr mint : List ℕ) :
    (fetchToken2022MetadataViaPointer fetch ptr mint).2 = [ptr] := by
  rcases hfp : fetch ptr with _ | buf
  · simp [fetchToken2022MetadataViaPointer, hfp]
  by_cases hb : buf.length = 0
  · simp [fetchToken2022MetadataViaPointer, hfp, hb]
  rcases herr : (parseToken2022TLVEntries buf mint none).2.2 with _ | e
  · simp [fetchToken2022MetadataViaPointer, hfp, hb, herr]
  by_cases hm : e = .metadataMissing
  · rcases hdec : decodeToken2022MetadataEntry buf mint with e2 | t <;>
      simp [fetchToken2022MetadataViaPointer, hfp, hb, herr, hm, hdec]
  · simp [fetchToken2022MetadataViaPointer, hfp, hb, herr, hm]

/-- C7: decoding Layout B metadata performs at most one pointer-following
remote fetch, and the helper that follows a type-18 pointer fetches exactly
that one address — so a type-18 pointer inside the fetched account is never
fetched, whatever any buffer contains. -/
theorem metadata_pointer_one_hop (fetch : List ℕ → Option (List ℕ))
    (mint data ptr : List ℕ) :
    (parseToken2022Metadata fetch mint data).2.length ≤ 1 ∧
    (fetchToken2022MetadataViaPointer fetch ptr mint).2 = [ptr] := by
  refine ⟨?_, fetchViaPointer_trace fetch ptr mint⟩
  by_cases hlen : data.length ≤ 82
  · simp [parseToken2022Metadata, hlen]
  rcases hreg : token2022TLVRegion data with e | region
  · simp [parseToken2022Metadata, hlen, hreg]
  rcases herr : (parseToken2022TLVEntries region mint none).2.2 with _ | e
  · simp [parseToken2022Metadata, hlen, hreg, herr]
  rcases hp2 : (parseToken2022TLVEntries region mint none).2.1 with _ | p
  · simp [parseToken2022Metadata, hlen, hreg, herr, hp2]
  · simp [parseToken2022Metadata, hlen, hreg, herr, hp2, fetchViaPointer_trace]

/-- C8 counterexample: a pointed-to buffer whose entry region holds a type-18
entry and no type-19 entry. The TLV parse returns the pointer with a nil
error, so the helper returns the empty token as a success; the bare type-19
fallback (which here would fail with a mint mismatch) is never attempted,
contrary to the claim that any no-type-19 buffer falls back. -/
theorem viaPointer_no_fallback_counterexample :
    (parseToken2022TLVEntries pointerOnlyBuf sampleMint none).1 = emptyToken ∧
    (parseToken2022TLVEntries pointerOnlyBuf sampleMint none).2.1 = some pointedAddr ∧
    (parseToken2022TLVEntries pointerOnlyBuf sampleMint none).2.2 = none ∧
    (fetchToken2022MetadataViaPointer (fun _ => some pointerOnlyBuf)
        samplePointer sampleMint).1 = .ok emptyToken ∧
    decodeToken2022MetadataEntry pointerOnlyBuf sampleMint = .error .mintMismatch ∧
    (Except.ok emptyToken : Except MetaErr Token) ≠ .error (.viaPointer .mintMismatch) := by
  refine ⟨?_, ?_, ?_, ?_, by decide, by decide⟩ <;>
    simp [parseToken2022TLVEntries, fetchToken2022MetadataViaPointer, pointerOnlyBuf,
      sampleMint, samplePointer, pointedAddr, decodeMetadataPointer, List.replicate,
      emptyToken]

/-- C8 (amended): for a buffer fetched through a type-18 pointer, the helper
falls back to decoding the buffer as a bare type-19 payload exactly when the
TLV parse fails with the no-metadata-found error; any other parse error is
returned as-is, and when the parse reports no error (a type-19 entry was
decoded, or only a type-18 pointer was found) its token — possibly the empty
token — is returned with no fallback. -/
theorem viaPointer_fallback_condition (fetch : List ℕ → Option (List ℕ))
    (ptr mint buf : List ℕ) (h1 : fetch ptr = some buf) (h2 : ¬ buf.length = 0) :
    ((parseToken2022TLVEntries buf mint none).2.2 = some .metadataMissing →
       (fetchToken2022MetadataViaPointer fetch ptr mint).1 =
         (match decodeToken2022MetadataEntry buf mint with
          | .ok t => .ok t
          | .error e => .error (.viaPointer e))) ∧
    (∀ e : MetaErr, (parseToken2022TLVEntries buf mint none).2.2 = some e →
       e ≠ .metadataMissing →
       (fetchToken2022MetadataViaPointer fetch ptr mint).1 = .error e) ∧
    ((parseToken2022TLVEntries buf mint none).2.2 = none →
       (fetchToken2022MetadataViaPointer fetch ptr mint).1 =
         .ok (parseToken2022TLVEntries buf mint none).1) := by
  refine ⟨?_, ?_, ?_⟩
  · intro hmiss
    rcases hdec : decodeToken2022MetadataEntry buf mint with e2 | t <;>
      simp [fetchToken2022MetadataViaPointer, h1, h2, hmiss, hdec]
  · intro e hsome hne
    simp [fetchToken2022MetadataViaPointer, h1, h2, hsome, hne]
  · intro hnone
    simp [fetchToken2022MetadataViaPointer, h1, h2, hnone]

/-- Witness for C8 (amended) on the pointer-only buffer: the parse reports no
error, so the helper returns its (empty) token without falling back. -/
theorem viaPointer_fallback_condition_witness :
    (fetchToken2022MetadataViaPointer (fun _ => some pointerOnlyBuf)
        samplePointer sampleMint).1 =
      .ok (parseToken2022TLVEntries pointerOnlyBuf sampleMint none).1 :=
  (viaPointer_fallback_condition (fun _ => some pointerOnlyBuf) samplePointer
      sampleMint pointerOnlyBuf rfl (by decide)).2.2
    (by simp [parseToken2022TLVEntries, pointerOnlyBuf, sampleMint,
      decodeMetadataPointer, List.replicate])

/-- C9: when the target symbol is not in the directory, resolution fails with
the recoverable missing-symbol-mapping condition carrying the single
unresolved candidate exactly when the unresolved set has one element; with
zero or two unresolved mints it fails with the hard unknown-symbol error. -/
theorem missingSymbolMapping_iff (symm : SymbolMapping) (sym : String)
    (h : MaybeMintFromSym symm sym = none) :
    ((∃ c, resolveTargetMint symm sym = .error (.missingSymbolMapping sym c) ∧
        symm.unresolved = [c]) ↔ symm.unresolved.length = 1) ∧
    (symm.unresolved.length = 0 ∨ symm.unresolved.length = 2 →
       resolveTargetMint symm sym = .error (.unknownSymbol sym)) := by
  have hres : resolveTargetMint symm sym =
      (match UnresolvedCandidate symm with
       | some candidate => .error (.missingSymbolMapping sym candidate)
       | none => .error (.unknownSymbol sym)) := by
    rw [resolveTargetMint, h]
  rcases hu : symm.unresolved with _ | ⟨x, rest⟩
  · have hcand : UnresolvedCandidate symm = none := by
      rw [UnresolvedCandidate, hu]
    rw [hres, hcand]
    refine ⟨⟨?_, ?_⟩, ?_⟩
    · rintro ⟨c, hc, -⟩; simp at hc
    · intro hlen; simp at hlen
    · intro _; rfl
  · rcases rest with _ | ⟨y, rest2⟩
    · have hcand : UnresolvedCandidate symm = some x := by
        rw [UnresolvedCandidate, hu]
      rw [hres, hcand]
      refine ⟨⟨?_, ?_⟩, ?_⟩
      · intro _; simp
      · intro _; exact ⟨x, rfl, rfl⟩
      · intro hlen; rcases hlen with h0 | h2
        · simp at h0
        · simp at h2
    · have hcand : UnresolvedCandidate symm = none := by
        rw [UnresolvedCandidate, hu]
      rw [hres, hcand]
      refine ⟨⟨?_, ?_⟩, ?_⟩
      · rintro ⟨c, hc, -⟩; simp at hc
      · intro hlen; simp at hlen
      · intro _; rfl

/-- Witness for C9 on a directory with exactly one unresolved mint. -/
theorem missingSymbolMapping_iff_witness :
    ((∃ c, resolveTargetMint symmOneUnresolved "SOL" =
        .error (.missingSymbolMapping "SOL" c) ∧
        symmOneUnresolved.unresolved = [c]) ↔
      symmOneUnresolved.unresolved.length = 1) ∧
    (symmOneUnresolved.unresolved.length = 0 ∨
        symmOneUnresolved.unresolved.length = 2 →
      resolveTargetMint symmOneUnresolved "SOL" = .error (.unknownSymbol "SOL")) :=
  missingSymbolMapping_iff symmOneUnresolved "SOL" rfl

/-- C10: building the wire instruction fails (no instruction is produced)
whenever, for the resolved kind, either encoded amount is absent or does not
fit an unsigned 64-bit integer — even though the quoting that produced the
intent is arbitrary-precision. -/
theorem buildSwap_requires_uint64 (ci : CPIntent) (payer authority inATA outATA : PubKey) :
    (ci.swapKind = .baseInput →
       (ci.amounts.knownAmount = none ∨ ci.amounts.minAmountOut = none ∨
        (∃ k, ci.amounts.knownAmount = some k ∧ isUint64 k = false) ∨
        (∃ m, ci.amounts.minAmountOut = some m ∧ isUint64 m = false)) →
       ∃ e, BuildSwapInstruction (some ci) payer authority inATA outATA = .error e) ∧
    (ci.swapKind = .baseOutput →
       (ci.amounts.maxAmountIn = none ∨ ci.amounts.knownAmount = none ∨
        (∃ k, ci.amounts.maxAmountIn = some k ∧ isUint64 k = false) ∨
        (∃ m, ci.amounts.knownAmount = some m ∧ isUint64 m = false)) →
       ∃ e, BuildSwapInstruction (some ci) payer authority inATA outATA = .error e) := by
  constructor
  · intro hkind hcond
    rcases hk : ci.amounts.knownAmount with _ | k
    · exact ⟨.swapMissingAmounts, by simp [BuildSwapInstruction, hkind, hk]⟩
    rcases hm : ci.amounts.minAmountOut with _ | m
    · exact ⟨.swapMissingAmounts, by simp [BuildSwapInstruction, hkind, hk, hm]⟩
    rcases hcond with hbad | hbad | ⟨k2, hk2, hu⟩ | ⟨m2, hm2, hu⟩
    · rw [hk] at hbad; cases hbad
    · rw [hm] at hbad; cases hbad
    · rw [hk] at hk2; cases hk2
      exact ⟨.amountsExceedUint64, by simp [BuildSwapInstruction, hkind, hk, hm, hu]⟩
    · rw [hm] at hm2; cases hm2
      exact ⟨.amountsExceedUint64, by simp [BuildSwapInstruction, hkind, hk, hm, hu]⟩
  · intro hkind hcond
    rcases hx : ci.amounts.maxAmountIn with _ | x
    · exact ⟨.swapMissingAmounts, by simp [BuildSwapInstruction, hkind, hx]⟩
    rcases hk : ci.amounts.knownAmount with _ | k
    · exact ⟨.swapMissingAmounts, by simp [BuildSwapInstruction, hkind, hx, hk]⟩
    rcases hcond with hbad | hbad | ⟨x2, hx2, hu⟩ | ⟨k2, hk2, hu⟩
    · rw [hx] at hbad; cases hbad
    · rw [hk] at hbad; cases hbad
    · rw [hx] at hx2; cases hx2
      exact ⟨.amountsExceedUint64, by simp [BuildSwapInstruction, hkind, hx, hk, hu]⟩
    · rw [hk] at hk2; cases hk2
      exact ⟨.amountsExceedUint64, by simp [BuildSwapInstruction, hkind, hx, hk, hu]⟩

/-- Witness for C10: an otherwise fully resolved base-input intent whose known
amount is `2^64` cannot be built. -/
theorem buildSwap_requires_uint64_witness :
    ∃ e, BuildSwapInstruction (some oversizedIntentSample) 1 2 3 4 = .error e :=
  (buildSwap_requires_uint64 oversizedIntentSample 1 2 3 4).1 rfl
    (Or.inr (Or.inr (Or.inl ⟨2 ^ 64, rfl, by decide⟩)))

end RaydiumClient
